import Mathlib

/-!
Verification of the kube-apiserver-audit-exporter correlation engine and
log tailer, as a shallow embedding of the Go sources in `exporter/`.

Conventions of the embedding:
- Go strings are Lean `String`, Go `int32` codes are `Int`.
- Go `time.Time` values are integers (an instant on a linear clock); the
  zero `time.Time` value is represented by `0`, so `IsZero` is `= 0`.
  `a.Sub(b).Seconds()` is an order- and difference-preserving conversion
  performed by the external `time` package; observations carry the raw
  difference `a - b`.
- A Go nil pointer is `Option.none`; Go maps are association lists.
- The opaque response body (`*runtime.Unknown`, a byte slice) is modelled
  by the results of the only two decodings ever applied to it
  (`json.Unmarshal` into `Pod` and into `BatchJob`), each of which may fail.
- A Go panic (nil-pointer dereference) is `Option.none` at the level of
  `updateMetrics`.
-/

namespace Exporter

/-- `Target` from exporter.go: value key identifying a workload. -/
structure Target where
  Name : String
  Namespace : String
deriving DecidableEq, Repr

/-- `auditv1.ObjectReference`, the fields read by the exporter. -/
structure ObjectReference where
  Resource : String
  Subresource : String
  APIGroup : String
  Namespace : String
  Name : String
deriving DecidableEq, Repr

/-- `auditv1.ResponseStatus`, the field read by the exporter. -/
structure ResponseStatus where
  Code : Int
deriving DecidableEq, Repr

/-- `Metadata` from the model file (part_006 variant): uid,
creationTimestamp, name, namespace. -/
structure Metadata where
  UID : String
  CreationTimestamp : Int
  Name : String
  Namespace : String
deriving DecidableEq, Repr

/-- `PodSpec` from the model file. -/
structure PodSpec where
  NodeName : String
deriving DecidableEq, Repr

/-- `Condition` from the model files: a status condition. -/
structure Condition where
  type : String
  Status : String
  LastTransitionTime : Int
deriving DecidableEq, Repr

/-- `PodStatus`: the condition list from the part_006 model plus the
`Phase` field read by the pod-delete branch of part_004's `updateMetrics`
(spec section 3 lists `status.phase` in the Pod snapshot). -/
structure PodStatus where
  Phase : String
  Conditions : List Condition
deriving DecidableEq, Repr

/-- `Pod` snapshot from the model file. -/
structure Pod where
  Kind : String
  Metadata : Metadata
  Spec : PodSpec
  Status : PodStatus
deriving DecidableEq, Repr

/-- `VolcanoBatchJobState` from the part_006 model. -/
structure VolcanoBatchJobState where
  Phase : String
deriving DecidableEq, Repr

/-- `BatchJobStatus`: union of the fields appearing across the model
variants — `CompletionTime` and `State` from part_006/part_005,
`Conditions` from model.go. Each `IsCompleted` variant reads its own
subset of these fields. -/
structure BatchJobStatus where
  CompletionTime : Int
  State : VolcanoBatchJobState
  Conditions : List Condition
deriving DecidableEq, Repr

/-- `BatchJob` snapshot from the model file. -/
structure BatchJob where
  Metadata : Metadata
  Status : BatchJobStatus
deriving DecidableEq, Repr

/-- `BatchJobStatus.IsCompleted` from part_006 (the model compiled with
part_004's engine): volcano phase equals "Completed", or the completion
timestamp is non-zero. -/
def BatchJobStatus.IsCompleted (b : BatchJobStatus) : Bool :=
  if b.State.Phase = "Completed" then true
  else if ¬ (b.CompletionTime = 0) then true
  else false

/-- `strings.HasPrefix` on character lists: the first list occurs at the
start of the second. -/
def hasPrefixList : List Char → List Char → Bool
  | [], _ => true
  | _ :: _, [] => false
  | a :: as, b :: bs => a == b && hasPrefixList as bs

/-- `strings.HasPrefix(s, pre)`. -/
def hasPrefixStr (s pre : String) : Bool :=
  hasPrefixList pre.toList s.toList

/-- `BatchJobStatus.IsCompleted` from model.go (the earlier variant): some
condition's type has the literal "Complete" at its start
(`strings.HasPrefix(condition.Type, "Complete")`). -/
def BatchJobStatus.IsCompletedByConditions (b : BatchJobStatus) : Bool :=
  b.Conditions.any (fun c => hasPrefixStr c.type "Complete")

/-- The opaque response body: results of the two decodings the code ever
applies to `event.ResponseObject.Raw` (each may fail, as `json.Unmarshal`
may). -/
structure RawBody where
  asPod : Option Pod
  asBatchJob : Option BatchJob
deriving DecidableEq, Repr

/-- `auditv1.Event`, the fields read by the exporter. -/
structure Event where
  Level : String
  Verb : String
  ObjectRef : Option ObjectReference
  ResponseStatus : Option ResponseStatus
  ResponseObject : Option RawBody
  UserAgent : String
  Stage : String
  StageTimestamp : Int
  RequestReceivedTimestamp : Int
deriving DecidableEq, Repr

/-- `auditv1.StageResponseComplete`. -/
def stageResponseComplete : String := "ResponseComplete"

/-- `strings.SplitN(s, sep, 2)[0]` for a one-character separator: the part
of `s` before the first occurrence of `c` (all of `s` when absent). -/
def splitBefore (c : Char) (s : String) : String :=
  String.mk (s.toList.takeWhile (fun a => a ≠ c))

/-- `extractUserAgent` from the source: first whitespace-delimited token of
the user-agent substring before its first "/"; empty result becomes
"unknown". -/
def extractUserAgent (ua : String) : String :=
  let name := splitBefore ' ' (splitBefore '/' ua)
  if name = "" then "unknown" else name

/-- `extractResourceName` from exporter.go. -/
def extractResourceName (e : Event) : String :=
  match e.ObjectRef with
  | none => "None"
  | some ref =>
    let s := ref.Resource
    let s := if ref.APIGroup ≠ "" then s ++ "." ++ ref.APIGroup else s
    if ref.Subresource ≠ "" then s ++ "/" ++ ref.Subresource else s

/-- `buildTarget` from exporter.go: nil reference or empty name gives the
zero Target. -/
def buildTarget (ref : Option ObjectReference) : Target :=
  match ref with
  | none => { Name := "", Namespace := "" }
  | some r =>
    if r.Name = "" then { Name := "", Namespace := "" }
    else { Name := r.Name, Namespace := r.Namespace }

/-- A Go `map[target]*time.Time` as an association list; the value
`Option Int` is the pointer (`none` = stored nil pointer = resolved,
`some t` = pointer to the time `t` = pending). -/
abbrev TimeMap := List (Target × Option Int)

/-- Go map read `v, ok := m[k]`: `none` means `ok = false` (absent). -/
def mapLookup (m : TimeMap) (k : Target) : Option (Option Int) :=
  match m with
  | [] => none
  | (k', v) :: rest => if k' = k then some v else mapLookup rest k

/-- Go map write `m[k] = v`. -/
def mapInsert (m : TimeMap) (k : Target) (v : Option Int) : TimeMap :=
  match m with
  | [] => [(k, v)]
  | (k', v') :: rest =>
    if k' = k then (k, v) :: rest else (k', v') :: mapInsert rest k v

/-- Go `delete(m, k)`. -/
def mapErase (m : TimeMap) (k : Target) : TimeMap :=
  match m with
  | [] => []
  | (k', v') :: rest => if k' = k then rest else (k', v') :: mapErase rest k

/-- The per-exporter Correlation State: the two `Target → *time.Time` maps
of part_004. -/
structure CorState where
  podCreationTimes : TimeMap
  batchJobCreationTimes : TimeMap
deriving DecidableEq, Repr

/-- One emission to the metrics sink, in emission order. -/
inductive Obs where
  | apiRequest (cluster ns user verb resource : String) (code : Int)
  | podScheduling (cluster ns user : String) (latency : Int)
  | podDeleted (cluster ns user phase : String)
  | batchJobCompletion (cluster ns user : String) (latency : Int)
deriving DecidableEq, Repr

/-- Whether an observation is a pod scheduling-latency observation. -/
def Obs.isPodSched : Obs → Bool
  | .podScheduling _ _ _ _ => true
  | _ => false

/-- Whether an observation is a job completion-latency observation. -/
def Obs.isJobCompletion : Obs → Bool
  | .batchJobCompletion _ _ _ _ => true
  | _ => false

/-- The pod binding-create branch of part_004's `updateMetrics`
(`Subresource == "binding" && Verb == "create"`). -/
def handlePodBinding (cl ns : String) (s : CorState) (e : Event)
    (ref : ObjectReference) : CorState × List Obs :=
  match mapLookup s.podCreationTimes (buildTarget (some ref)) with
  | none =>
    -- Kueue's audit events may create pod/binding events before pod
    -- creation events: observe 0 and mark resolved.
    ({ s with podCreationTimes := mapInsert s.podCreationTimes (buildTarget (some ref)) none },
     [.podScheduling cl ns (extractUserAgent e.UserAgent) 0])
  | some none => (s, [])
  | some (some ct) =>
    ({ s with podCreationTimes := mapInsert s.podCreationTimes (buildTarget (some ref)) none },
     [.podScheduling cl ns (extractUserAgent e.UserAgent) (e.StageTimestamp - ct)])

/-- The pod non-binding create branch of part_004's `updateMetrics`. The Go
code reads `event.ResponseObject.Raw` without a nil check, so a nil
response body is a nil-pointer dereference (`none` = panic). -/
def handlePodCreate (s : CorState) (e : Event) : Option (CorState × List Obs) :=
  match e.ResponseObject with
  | none => none
  | some raw =>
    match raw.asPod with
    | none => some (s, [])
    | some pod =>
      if pod.Spec.NodeName = "" then
        some (CorState.mk
          (mapInsert s.podCreationTimes
            (Target.mk pod.Metadata.Name pod.Metadata.Namespace) (some e.StageTimestamp))
          s.batchJobCreationTimes, [])
      else
        some (CorState.mk
          (mapInsert s.podCreationTimes
            (Target.mk pod.Metadata.Name pod.Metadata.Namespace) none)
          s.batchJobCreationTimes, [])

/-- The pod delete branch of part_004's `updateMetrics`. -/
def handlePodDelete (cl ns : String) (s : CorState) (e : Event)
    (ref : ObjectReference) : CorState × List Obs :=
  match e.ResponseObject with
  | none =>
    ({ s with podCreationTimes := mapErase s.podCreationTimes (buildTarget (some ref)) }, [])
  | some raw =>
    match raw.asPod with
    | none =>
      ({ s with podCreationTimes := mapErase s.podCreationTimes (buildTarget (some ref)) }, [])
    | some pod =>
      ({ s with podCreationTimes := mapErase s.podCreationTimes (buildTarget (some ref)) },
       [.podDeleted cl ns (extractUserAgent e.UserAgent) pod.Status.Phase])

/-- The jobs branch of part_004's `updateMetrics`. -/
def handleJobs (cl ns : String) (s : CorState) (e : Event)
    (ref : ObjectReference) : CorState × List Obs :=
  if e.Verb = "create" ∧ e.ResponseObject.isSome then
    match e.ResponseObject with
    | none => (s, [])
    | some raw =>
      match raw.asBatchJob with
      | none => (s, [])
      | some job =>
        (CorState.mk s.podCreationTimes
          (mapInsert s.batchJobCreationTimes
            (Target.mk job.Metadata.Name job.Metadata.Namespace) (some e.StageTimestamp)), [])
  else if e.Verb = "delete" then
    (CorState.mk s.podCreationTimes
      (mapErase s.batchJobCreationTimes (buildTarget (some ref))), [])
  else
    match mapLookup s.batchJobCreationTimes (buildTarget (some ref)), e.ResponseObject with
    | some (some _), some raw =>
      match raw.asBatchJob with
      | none => (s, [])
      | some job =>
        if job.Status.IsCompleted then
          (CorState.mk s.podCreationTimes
            (mapInsert s.batchJobCreationTimes (buildTarget (some ref)) none),
           [.batchJobCompletion cl ns (extractUserAgent e.UserAgent)
              (e.StageTimestamp - job.Metadata.CreationTimestamp)])
        else (s, [])
    | _, _ => (s, [])

/-- Dispatch on `ObjectRef.Resource` in part_004's `updateMetrics`. -/
def handleRef (cl ns : String) (s : CorState) (e : Event)
    (ref : ObjectReference) : Option (CorState × List Obs) :=
  if ref.Resource = "pods" then
    if ref.Subresource = "binding" ∧ e.Verb = "create" then
      some (handlePodBinding cl ns s e ref)
    else if e.Verb = "create" then handlePodCreate s e
    else if e.Verb = "delete" then some (handlePodDelete cl ns s e ref)
    else some (s, [])
  else if ref.Resource = "jobs" then some (handleJobs cl ns s e ref)
  else some (s, [])

/-- `updateMetrics` from part_004: the full correlation engine for one
event. `none` models a Go panic; `some (s', obs)` is the new state and the
emissions in order. -/
def updateMetrics (cl : String) (s : CorState) (e : Event) :
    Option (CorState × List Obs) :=
  match e.ResponseStatus with
  | none => some (s, [])
  | some rs =>
    if rs.Code < 200 ∨ 300 ≤ rs.Code then some (s, [])
    else
      let ns := match e.ObjectRef with
        | some r => r.Namespace
        | none => ""
      let obsA : List Obs :=
        if e.Stage = stageResponseComplete then
          [.apiRequest cl ns (extractUserAgent e.UserAgent) e.Verb (extractResourceName e) rs.Code]
        else []
      match e.ObjectRef with
      | none => some (s, obsA)
      | some ref =>
        match handleRef cl ns s e ref with
        | none => none
        | some (s', obs') => some (s', obsA ++ obs')

/-- Result of one `processFileUpdate` call: the new stored offset, the new
downstream state, the raw records emitted (in order, each including its
terminating newline), and whether the poll returned nil (`ok = true`) or
an error (`ok = false`). -/
structure PollResult (σ : Type) where
  offset : Nat
  state : σ
  emitted : List (List Nat)
  ok : Bool
deriving DecidableEq, Repr

/-- The shape check of the read loop:
`bytes.HasPrefix(line, "\x7b") && bytes.HasSuffix(line, "\x7d\n")`.
Bytes are numbers: 123 = left brace, 125 = right brace, 10 = newline. -/
def shapeOk (l : List Nat) : Bool :=
  (l.head? == some 123) && (l.drop (l.length - 2) == [125, 10])

/-- The `for { reader.ReadSlice('\n') ... }` loop of `processFileUpdate`,
one byte at a time: `acc` is the part of the current line read so far
(`ReadSlice` accumulating up to the next newline), `off` the stored offset,
which sits at the start of the current line and advances by the whole line
on success. End of input inside a line (`io.EOF` from `ReadSlice`) returns
nil without consuming the partial line. A terminated line failing the
shape check or the decode returns an error with the offset unadvanced.
Generic over the decoder (`json.Unmarshal`, external) and the downstream
per-event update. -/
def readLoop (dec : List Nat → Option Event) (upd : σ → Event → σ) :
    List Nat → List Nat → Nat → σ → PollResult σ
  | [], _, off, st => ⟨off, st, [], true⟩
  | b :: rest, acc, off, st =>
    if b = 10 then
      let line := acc ++ [10]
      if shapeOk line then
        match dec line with
        | none => ⟨off, st, [], false⟩
        | some ev =>
          let res := readLoop dec upd rest [] (off + line.length) (upd st ev)
          { res with emitted := line :: res.emitted }
      else ⟨off, st, [], false⟩
    else readLoop dec upd rest (acc ++ [b]) off st

/-- `processFileUpdate` from exporter.go: the content of the file is
`content`; stat gives `content.length`. Size below the offset resets the
offset to zero and continues (truncation); size equal to the offset
returns at once with nothing changed; otherwise the tailer seeks to the
offset and runs the read loop. -/
def processFileUpdate (dec : List Nat → Option Event) (upd : σ → Event → σ)
    (content : List Nat) (offset : Nat) (st : σ) : PollResult σ :=
  if content.length < offset then
    readLoop dec upd content [] 0 st
  else if content.length = offset then ⟨offset, st, [], true⟩
  else readLoop dec upd (content.drop offset) [] offset st

/-- A newline-terminated record: a body free of newlines followed by the
newline byte. -/
def IsRecordLine (l : List Nat) : Prop :=
  ∃ m, l = m ++ [10] ∧ 10 ∉ m

/-! Concrete inputs used to instantiate the theorems. -/

/-- A pod binding object reference. -/
def refPodsBinding : ObjectReference :=
  { Resource := "pods", Subresource := "binding", APIGroup := "",
    Namespace := "ns1", Name := "p1" }

/-- A batch-group jobs object reference. -/
def refJobsBatch : ObjectReference :=
  { Resource := "jobs", Subresource := "", APIGroup := "batch",
    Namespace := "ns1", Name := "j1" }

/-- An event carrying the pod binding reference. -/
def evPodsBinding : Event :=
  { Level := "", Verb := "create", ObjectRef := some refPodsBinding,
    ResponseStatus := none, ResponseObject := none, UserAgent := "",
    Stage := "", StageTimestamp := 0, RequestReceivedTimestamp := 0 }

/-- An event carrying the batch jobs reference. -/
def evJobsBatch : Event :=
  { Level := "", Verb := "get", ObjectRef := some refJobsBatch,
    ResponseStatus := none, ResponseObject := none, UserAgent := "",
    Stage := "", StageTimestamp := 0, RequestReceivedTimestamp := 0 }

/-- A successfully-answered pod binding-create event (code 201, stage
response-complete, timestamp 42). -/
def evBindingCreate : Event :=
  { Level := "", Verb := "create", ObjectRef := some refPodsBinding,
    ResponseStatus := some { Code := 201 }, ResponseObject := none,
    UserAgent := "kubelet/v1", Stage := "ResponseComplete",
    StageTimestamp := 42, RequestReceivedTimestamp := 0 }

/-- An event rejected by the entry filter (code 404). -/
def evNotFound : Event :=
  { Level := "", Verb := "create", ObjectRef := some refPodsBinding,
    ResponseStatus := some { Code := 404 }, ResponseObject := none,
    UserAgent := "", Stage := "ResponseComplete",
    StageTimestamp := 0, RequestReceivedTimestamp := 0 }

/-- A pod non-binding create event answered 200 whose response body is
absent (nil `ResponseObject`). -/
def evPodCreateNilBody : Event :=
  { Level := "", Verb := "create",
    ObjectRef := some { Resource := "pods", Subresource := "", APIGroup := "",
                        Namespace := "ns1", Name := "p1" },
    ResponseStatus := some { Code := 200 }, ResponseObject := none,
    UserAgent := "", Stage := "ResponseStarted",
    StageTimestamp := 3, RequestReceivedTimestamp := 0 }

/-- A batch job snapshot whose metadata creation timestamp is 100 and whose
status satisfies the completion predicate (non-zero completion time). -/
def exJobSnapshot : BatchJob :=
  { Metadata := { UID := "u", CreationTimestamp := 100, Name := "j", Namespace := "d" },
    Status := { CompletionTime := 1, State := { Phase := "" }, Conditions := [] } }

/-- Correlation state holding a pending batch-job entry for target (j, d)
whose stored timestamp is 110 (the create event's stage timestamp). -/
def exC1State : CorState :=
  { podCreationTimes := [],
    batchJobCreationTimes := [({ Name := "j", Namespace := "d" }, some 110)] }

/-- A jobs status-update event at stage timestamp 150 whose body decodes to
`exJobSnapshot`. -/
def evJobComplete : Event :=
  { Level := "", Verb := "update",
    ObjectRef := some { Resource := "jobs", Subresource := "", APIGroup := "batch",
                        Namespace := "d", Name := "j" },
    ResponseStatus := some { Code := 200 },
    ResponseObject := some { asPod := none, asBatchJob := some exJobSnapshot },
    UserAgent := "", Stage := "ResponseStarted",
    StageTimestamp := 150, RequestReceivedTimestamp := 0 }

/-- The correlation state after `evJobComplete` resolves the entry. -/
def exC1Post : CorState :=
  { podCreationTimes := [],
    batchJobCreationTimes := [({ Name := "j", Namespace := "d" }, none)] }

/-- A batch-job status with no completion time and no volcano phase, but a
"Complete" condition. -/
def exStatusCondOnly : BatchJobStatus :=
  { CompletionTime := 0, State := { Phase := "" },
    Conditions := [{ type := "Complete", Status := "True", LastTransitionTime := 0 }] }

/-- The empty correlation state. -/
def emptyState : CorState := { podCreationTimes := [], batchJobCreationTimes := [] }

/-- A decoder that fails on every record (only its totality matters to the
tailer theorems it instantiates). -/
def decNone : List Nat → Option Event := fun _ => none

/-- A decoder that succeeds on every record. -/
def decSome : List Nat → Option Event := fun _ => some evPodsBinding

/-- A trivial downstream update over a unit state. -/
def updUnit : Unit → Event → Unit := fun _ _ => ()

/-- File content whose unread region starts with a NUL run followed by a
well-formed record: bytes 0 0 then the record 123 125 10. -/
def nulContent : List Nat := [0, 0, 123, 125, 10]

/-- File content holding one well-formed record 123 125 10 followed by a
terminated but malformed record 123 10. -/
def corruptContent : List Nat := [123, 125, 10, 123, 10]

/-! Helper lemmas. -/

/-- Reading a map key just written returns the written value. -/
theorem mapLookup_mapInsert (m : TimeMap) (k : Target) (v : Option Int) :
    mapLookup (mapInsert m k v) k = some v := by
  induction m with
  | nil => simp [mapInsert, mapLookup]
  | cons p rest ih =>
    by_cases h : p.1 = k
    · simp [mapInsert, mapLookup, h]
    · simp [mapInsert, mapLookup, h, ih]

/-- A scheduling observation of the binding branch comes from an absent
entry (value 0) or from a pending entry (value stage timestamp minus the
stored timestamp). -/
theorem handlePodBinding_podSched (cl ns : String) (s : CorState) (e : Event)
    (ref : ObjectReference) {c n u : String} {L : Int}
    (h : Obs.podScheduling c n u L ∈ (handlePodBinding cl ns s e ref).2) :
    (mapLookup s.podCreationTimes (buildTarget (some ref)) = none ∧ L = 0) ∨
    (∃ ts, mapLookup s.podCreationTimes (buildTarget (some ref)) = some (some ts) ∧
      L = e.StageTimestamp - ts) := by
  unfold handlePodBinding at h
  rcases hm : mapLookup s.podCreationTimes (buildTarget (some ref)) with _ | (_ | ts) <;>
      rw [hm] at h
  · simp only [List.mem_singleton, Obs.podScheduling.injEq] at h
    exact Or.inl ⟨rfl, h.2.2.2⟩
  · simp at h
  · simp only [List.mem_singleton, Obs.podScheduling.injEq] at h
    exact Or.inr ⟨ts, rfl, h.2.2.2⟩

/-- The binding branch never emits a job-completion observation. -/
theorem handlePodBinding_no_job (cl ns : String) (s : CorState) (e : Event)
    (ref : ObjectReference) {c n u : String} {L : Int} :
    Obs.batchJobCompletion c n u L ∉ (handlePodBinding cl ns s e ref).2 := by
  unfold handlePodBinding
  rcases mapLookup s.podCreationTimes (buildTarget (some ref)) with _ | (_ | ts) <;> simp

/-- The pod-create branch, when it does not panic, emits nothing. -/
theorem handlePodCreate_obs (s : CorState) (e : Event) (s' : CorState)
    (obs : List Obs) (h : handlePodCreate s e = some (s', obs)) : obs = [] := by
  unfold handlePodCreate at h
  rcases hro : e.ResponseObject with _ | raw <;> rw [hro] at h
  · simp at h
  · dsimp only at h
    rcases hap : raw.asPod with _ | pod <;> rw [hap] at h
    · simp at h
      exact h.2
    · dsimp only at h
      split at h <;> (simp at h; exact h.2)

/-- The pod-delete branch emits only pod-deleted counters. -/
theorem handlePodDelete_obs (cl ns : String) (s : CorState) (e : Event)
    (ref : ObjectReference) {o : Obs}
    (h : o ∈ (handlePodDelete cl ns s e ref).2) :
    o.isPodSched = false ∧ o.isJobCompletion = false := by
  unfold handlePodDelete at h
  rcases hro : e.ResponseObject with _ | raw <;> rw [hro] at h
  · simp at h
  · dsimp only at h
    rcases hap : raw.asPod with _ | pod <;> rw [hap] at h
    · simp at h
    · dsimp only at h
      simp only [List.mem_singleton] at h
      subst h
      exact ⟨rfl, rfl⟩

/-- The jobs branch never emits a scheduling observation. -/
theorem handleJobs_no_podSched (cl ns : String) (s : CorState) (e : Event)
    (ref : ObjectReference) {c n u : String} {L : Int} :
    Obs.podScheduling c n u L ∉ (handleJobs cl ns s e ref).2 := by
  unfold handleJobs
  by_cases h1 : e.Verb = "create" ∧ e.ResponseObject.isSome = true
  · rw [if_pos h1]
    rcases hro : e.ResponseObject with _ | raw
    · simp
    · dsimp only
      rcases hab : raw.asBatchJob with _ | job <;> simp
  · rw [if_neg h1]
    by_cases h2 : e.Verb = "delete"
    · rw [if_pos h2]
      simp
    · rw [if_neg h2]
      rcases hm : mapLookup s.batchJobCreationTimes (buildTarget (some ref)) with _ | (_ | ts) <;>
          rcases hro : e.ResponseObject with _ | raw
      · simp
      · simp
      · simp
      · simp
      · simp
      · dsimp only
        rcases hab : raw.asBatchJob with _ | job
        · simp
        · dsimp only
          split <;> simp

/-- A job-completion observation of the jobs branch requires a pending
entry for the Target and carries the stage timestamp minus the decoded
snapshot's creation timestamp. -/
theorem handleJobs_job (cl ns : String) (s : CorState) (e : Event)
    (ref : ObjectReference) {c n u : String} {L : Int}
    (h : Obs.batchJobCompletion c n u L ∈ (handleJobs cl ns s e ref).2) :
    (∃ ts, mapLookup s.batchJobCreationTimes (buildTarget (some ref)) = some (some ts)) ∧
    ∃ raw job, e.ResponseObject = some raw ∧ raw.asBatchJob = some job ∧
      L = e.StageTimestamp - job.Metadata.CreationTimestamp := by
  unfold handleJobs at h
  by_cases h1 : e.Verb = "create" ∧ e.ResponseObject.isSome = true
  · rw [if_pos h1] at h
    rcases hro : e.ResponseObject with _ | raw <;> rw [hro] at h
    · simp at h
    · dsimp only at h
      rcases hab : raw.asBatchJob with _ | job <;> rw [hab] at h <;> simp at h
  · rw [if_neg h1] at h
    by_cases h2 : e.Verb = "delete"
    · rw [if_pos h2] at h
      simp at h
    · rw [if_neg h2] at h
      rcases hm : mapLookup s.batchJobCreationTimes (buildTarget (some ref)) with _ | (_ | ts) <;>
          rw [hm] at h <;> rcases hro : e.ResponseObject with _ | raw <;> rw [hro] at h
      · simp at h
      · simp at h
      · simp at h
      · simp at h
      · simp at h
      · dsimp only at h
        rcases hab : raw.asBatchJob with _ | job <;> rw [hab] at h
        · simp at h
        · dsimp only at h
          by_cases hic : job.Status.IsCompleted = true
          · rw [if_pos hic] at h
            simp only [List.mem_singleton, Obs.batchJobCompletion.injEq] at h
            exact ⟨⟨ts, rfl⟩, raw, job, rfl, hab, h.2.2.2⟩
          · rw [if_neg hic] at h
            simp at h

/-- Any latency observation (scheduling or job completion) emitted by
`updateMetrics` originates in the binding branch or the jobs branch for
the event's own object reference. -/
theorem updateMetrics_latency_source (cl : String) (s : CorState) (e : Event)
    (s' : CorState) (obs : List Obs)
    (h : updateMetrics cl s e = some (s', obs)) {o : Obs} (hm : o ∈ obs)
    (hns : o.isPodSched = true ∨ o.isJobCompletion = true) :
    ∃ ref, e.ObjectRef = some ref ∧
      (o ∈ (handlePodBinding cl ref.Namespace s e ref).2 ∨
       o ∈ (handleJobs cl ref.Namespace s e ref).2) := by
  unfold updateMetrics at h
  rcases hrs : e.ResponseStatus with _ | rs <;> rw [hrs] at h <;> dsimp only at h
  · simp only [Option.some.injEq, Prod.mk.injEq] at h
    obtain ⟨-, hobs⟩ := h
    subst hobs
    simp at hm
  · by_cases hf : rs.Code < 200 ∨ 300 ≤ rs.Code
    · rw [if_pos hf] at h
      simp only [Option.some.injEq, Prod.mk.injEq] at h
      obtain ⟨-, hobs⟩ := h
      subst hobs
      simp at hm
    · rw [if_neg hf] at h
      rcases href : e.ObjectRef with _ | ref <;> rw [href] at h <;> dsimp only at h
      · simp only [Option.some.injEq, Prod.mk.injEq] at h
        obtain ⟨-, hobs⟩ := h
        subst hobs
        by_cases hst : e.Stage = stageResponseComplete
        · rw [if_pos hst] at hm
          simp only [List.mem_singleton] at hm
          subst hm
          rcases hns with hns | hns <;> simp [Obs.isPodSched, Obs.isJobCompletion] at hns
        · rw [if_neg hst] at hm
          simp at hm
      · rcases hh : handleRef cl ref.Namespace s e ref with _ | ⟨s'', obs'⟩ <;> rw [hh] at h
        · simp at h
        · simp only [Option.some.injEq, Prod.mk.injEq] at h
          obtain ⟨-, hobs⟩ := h
          subst hobs
          rcases List.mem_append.mp hm with hA | hB
          · exfalso
            by_cases hst : e.Stage = stageResponseComplete
            · rw [if_pos hst] at hA
              simp only [List.mem_singleton] at hA
              subst hA
              rcases hns with hns | hns <;>
                simp [Obs.isPodSched, Obs.isJobCompletion] at hns
            · rw [if_neg hst] at hA
              simp at hA
          · refine ⟨ref, rfl, ?_⟩
            unfold handleRef at hh
            by_cases hp : ref.Resource = "pods"
            · rw [if_pos hp] at hh
              by_cases hb : ref.Subresource = "binding" ∧ e.Verb = "create"
              · rw [if_pos hb] at hh
                injection hh with hh'
                exact Or.inl ((congrArg Prod.snd hh').symm ▸ hB)
              · rw [if_neg hb] at hh
                by_cases hc : e.Verb = "create"
                · rw [if_pos hc] at hh
                  have h0 := handlePodCreate_obs s e s'' obs' hh
                  rw [h0] at hB
                  simp at hB
                · rw [if_neg hc] at hh
                  by_cases hd : e.Verb = "delete"
                  · rw [if_pos hd] at hh
                    injection hh with hh'
                    exfalso
                    have hB' : o ∈ (handlePodDelete cl ref.Namespace s e ref).2 :=
                      (congrArg Prod.snd hh').symm ▸ hB
                    have hpd := handlePodDelete_obs cl ref.Namespace s e ref hB'
                    rcases hns with hns | hns
                    · rw [hpd.1] at hns
                      cases hns
                    · rw [hpd.2] at hns
                      cases hns
                  · rw [if_neg hd] at hh
                    injection hh with hh'
                    have h0 : ([] : List Obs) = obs' := congrArg Prod.snd hh'
                    rw [← h0] at hB
                    simp at hB
            · rw [if_neg hp] at hh
              by_cases hj : ref.Resource = "jobs"
              · rw [if_pos hj] at hh
                injection hh with hh'
                exact Or.inr ((congrArg Prod.snd hh').symm ▸ hB)
              · rw [if_neg hj] at hh
                injection hh with hh'
                have h0 : ([] : List Obs) = obs' := congrArg Prod.snd hh'
                rw [← h0] at hB
                simp at hB

/-- Consuming one newline-terminated line: the loop reads the body `m` and
the newline into the current line and proceeds per the shape check. -/
theorem readLoop_record {σ : Type} (dec : List Nat → Option Event)
    (upd : σ → Event → σ) (m rest acc : List Nat) (off : Nat) (st : σ)
    (hm : 10 ∉ m) :
    readLoop dec upd (m ++ 10 :: rest) acc off st =
      (if shapeOk (acc ++ m ++ [10]) then
        match dec (acc ++ m ++ [10]) with
        | none => ⟨off, st, [], false⟩
        | some ev =>
          let res := readLoop dec upd rest [] (off + (acc ++ m ++ [10]).length) (upd st ev)
          { res with emitted := (acc ++ m ++ [10]) :: res.emitted }
      else ⟨off, st, [], false⟩) := by
  induction m generalizing acc with
  | nil =>
    simp [readLoop]
  | cons b bs ih =>
    have hb : b ≠ 10 := fun hEq => hm (hEq ▸ List.mem_cons_self b bs)
    have hm' : 10 ∉ bs := fun hmem => hm (List.mem_cons_of_mem b hmem)
    simp only [List.cons_append, readLoop, if_neg hb, List.append_eq]
    rw [ih (acc ++ [b]) hm']
    have harr : acc ++ [b] ++ bs = acc ++ b :: bs := by simp
    rw [harr]

/-- The loop never moves the offset backwards. -/
theorem readLoop_offset_le {σ : Type} (dec : List Nat → Option Event)
    (upd : σ → Event → σ) (rest acc : List Nat) (off : Nat) (st : σ) :
    off ≤ (readLoop dec upd rest acc off st).offset := by
  induction rest generalizing acc off st with
  | nil => simp [readLoop]
  | cons b bs ih =>
    simp only [readLoop]
    by_cases hb : b = 10
    · rw [if_pos hb]
      by_cases hs : shapeOk (acc ++ [10]) = true
      · rw [if_pos hs]
        split
        · exact Nat.le.refl
        · next ev _ =>
          dsimp only
          exact Nat.le_trans (Nat.le_add_right off (acc ++ [10]).length)
            (ih [] (off + (acc ++ [10]).length) (upd st ev))
      · rw [if_neg hs]
    · rw [if_neg hb]
      exact ih (acc ++ [b]) off st

/-- Well-formed, decodable records followed by a terminated malformed line:
the loop emits exactly the good records, advances the offset by exactly
their bytes, and returns an error at the start of the malformed line. -/
theorem readLoop_corrupt {σ : Type} (dec : List Nat → Option Event)
    (upd : σ → Event → σ) (ls : List (List Nat)) (bad t : List Nat)
    (off : Nat) (st : σ)
    (hgood : ∀ l ∈ ls, IsRecordLine l ∧ shapeOk l = true ∧ (dec l).isSome = true)
    (hbad : IsRecordLine bad) (hbadshape : shapeOk bad = false) :
    (readLoop dec upd (ls.join ++ bad ++ t) [] off st).offset =
        off + (ls.map List.length).sum ∧
    (readLoop dec upd (ls.join ++ bad ++ t) [] off st).ok = false ∧
    (readLoop dec upd (ls.join ++ bad ++ t) [] off st).emitted = ls := by
  induction ls generalizing off st with
  | nil =>
    obtain ⟨m, hbm, hm⟩ := hbad
    subst hbm
    have harr : ([] : List (List Nat)).join ++ (m ++ [10]) ++ t = m ++ 10 :: t := by simp
    rw [harr, readLoop_record dec upd m t [] off st hm]
    have hline : ([] : List Nat) ++ m ++ [10] = m ++ [10] := by simp
    rw [hline, if_neg (by simp [hbadshape])]
    simp
  | cons l ls' ih =>
    obtain ⟨hl, hshape, hdec⟩ := hgood l (List.mem_cons_self ..)
    obtain ⟨m, hlm, hm⟩ := hl
    have harr : (l :: ls').join ++ bad ++ t = m ++ 10 :: (ls'.join ++ bad ++ t) := by
      rw [hlm]
      simp
    rw [harr, readLoop_record dec upd m _ [] off st hm]
    have hline : ([] : List Nat) ++ m ++ [10] = l := by
      rw [hlm]
      simp
    rw [hline, if_pos hshape]
    obtain ⟨ev, hev⟩ := Option.isSome_iff_exists.mp hdec
    rw [hev]
    have ihres := ih (off + l.length) (upd st ev)
      (fun l' hl' => hgood l' (List.mem_cons_of_mem _ hl'))
    dsimp only
    refine ⟨?_, ihres.2.1, ?_⟩
    · rw [ihres.1]
      simp [Nat.add_assoc]
    · rw [ihres.2.2]

/-- A line whose first byte is not a left brace, once terminated, fails the
shape check: the loop errors without advancing. -/
theorem readLoop_badhead {σ : Type} (dec : List Nat → Option Event)
    (upd : σ → Event → σ) (rest acc : List Nat) (b : Nat) (off : Nat) (st : σ)
    (hacc : acc.head? = some b) (hb : b ≠ 123) (hnl : 10 ∈ rest) :
    readLoop dec upd rest acc off st = ⟨off, st, [], false⟩ := by
  induction rest generalizing acc with
  | nil => cases hnl
  | cons c cs ih =>
    simp only [readLoop]
    by_cases hc : c = 10
    · rw [if_pos hc]
      have hhead : (acc ++ [10]).head? = some b := by
        cases acc with
        | nil => simp at hacc
        | cons a as => simpa using hacc
      have hshape : shapeOk (acc ++ [10]) = false := by
        unfold shapeOk
        rw [hhead]
        simp [hb]
      rw [if_neg (by simp [hshape])]
    · rw [if_neg hc]
      have hhead : (acc ++ [c]).head? = some b := by
        cases acc with
        | nil => simp at hacc
        | cons a as => simpa using hacc
      have hnl' : 10 ∈ cs := by
        rcases List.mem_cons.mp hnl with h10 | h10
        · exact absurd h10.symm hc
        · exact h10
      exact ih (acc ++ [c]) hhead hnl'

/-! Claim theorems. -/

/-- C9: for every event with a non-nil objectRef, the extracted
resource-name is the resource, then "." plus the apiGroup when non-empty,
then "/" plus the subresource when non-empty; in particular pods/binding
and jobs.batch come out as expected. -/
theorem c9_resource_name :
    (∀ (e : Event) (ref : ObjectReference), e.ObjectRef = some ref →
      extractResourceName e =
        ref.Resource
          ++ (if ref.APIGroup = "" then "" else "." ++ ref.APIGroup)
          ++ (if ref.Subresource = "" then "" else "/" ++ ref.Subresource))
    ∧ extractResourceName evPodsBinding = "pods/binding"
    ∧ extractResourceName evJobsBatch = "jobs.batch" := by
  refine ⟨?_, by decide, by decide⟩
  intro e ref h
  simp only [extractResourceName, h]
  by_cases hg : ref.APIGroup = "" <;> by_cases hs : ref.Subresource = "" <;>
    simp [hg, hs, String.append_assoc]

/-- C9 witness: the general formula applied to the concrete pods/binding
event. -/
theorem c9_witness :
    evPodsBinding.ObjectRef = some refPodsBinding ∧
    extractResourceName evPodsBinding =
      refPodsBinding.Resource
        ++ (if refPodsBinding.APIGroup = "" then "" else "." ++ refPodsBinding.APIGroup)
        ++ (if refPodsBinding.Subresource = "" then "" else "/" ++ refPodsBinding.Subresource) :=
  ⟨rfl, c9_resource_name.1 evPodsBinding refPodsBinding rfl⟩

/-- C10: an object reference with empty name maps to the zero Target
whatever its namespace, so any two unnamed references share one Target
(hence one lifecycle entry). -/
theorem c10_empty_name_zero_target (r₁ r₂ : ObjectReference)
    (h₁ : r₁.Name = "") (h₂ : r₂.Name = "") :
    buildTarget (some r₁) = { Name := "", Namespace := "" } ∧
    buildTarget (some r₁) = buildTarget (some r₂) := by
  simp [buildTarget, h₁, h₂]

/-- C10 witness: two unnamed references in different namespaces both give
the zero Target. -/
theorem c10_witness :
    (ObjectReference.mk "pods" "" "" "nsA" "").Name = "" ∧
    (ObjectReference.mk "jobs" "" "batch" "nsB" "").Name = "" ∧
    (buildTarget (some (ObjectReference.mk "pods" "" "" "nsA" "")) =
        { Name := "", Namespace := "" } ∧
      buildTarget (some (ObjectReference.mk "pods" "" "" "nsA" "")) =
        buildTarget (some (ObjectReference.mk "jobs" "" "batch" "nsB" ""))) :=
  ⟨rfl, rfl, c10_empty_name_zero_target _ _ rfl rfl⟩

/-- C2 counterexample: a status with a "Complete" condition but zero
completion time and no volcano phase satisfies the claimed three-way
disjunction, yet the completion predicate compiled with the part_004
engine (part_006's `IsCompleted`) returns false: no single variant checks
all three encodings. -/
theorem c2_counterexample :
    BatchJobStatus.IsCompleted exStatusCondOnly = false ∧
    (exStatusCondOnly.State.Phase = "Completed" ∨
      exStatusCondOnly.CompletionTime ≠ 0 ∨
      ∃ c ∈ exStatusCondOnly.Conditions, hasPrefixStr c.type "Complete" = true) := by
  refine ⟨by decide, Or.inr (Or.inr ?_)⟩
  exact ⟨{ type := "Complete", Status := "True", LastTransitionTime := 0 },
    by decide, by decide⟩

/-- C2 amended: each variant checks its own subset — the part_006/part_005
predicate is true exactly when the volcano phase is "Completed" or the
completion timestamp is non-zero (conditions ignored); the model.go
predicate is true exactly when some condition's type begins with
"Complete" (phase and completion time ignored). -/
theorem c2_amended_predicates (b : BatchJobStatus) :
    (b.IsCompleted = true ↔
      (b.State.Phase = "Completed" ∨ b.CompletionTime ≠ 0)) ∧
    (b.IsCompletedByConditions = true ↔
      ∃ c ∈ b.Conditions, hasPrefixStr c.type "Complete" = true) := by
  constructor
  · unfold BatchJobStatus.IsCompleted
    by_cases h1 : b.State.Phase = "Completed" <;>
      by_cases h2 : b.CompletionTime = 0 <;> simp [h1, h2]
  · simp [BatchJobStatus.IsCompletedByConditions, List.any_eq_true]

/-- C6: an event with no response status, or a code outside the interval
from 200 up to but excluding 300, changes nothing: no emission and the
correlation state is returned untouched. -/
theorem c6_entry_filter (cl : String) (s : CorState) (e : Event)
    (h : e.ResponseStatus = none ∨
      ∃ rs, e.ResponseStatus = some rs ∧ (rs.Code < 200 ∨ 300 ≤ rs.Code)) :
    updateMetrics cl s e = some (s, []) := by
  rcases h with h | ⟨rs, hrs, hc⟩
  · simp [updateMetrics, h]
  · simp only [updateMetrics, hrs]
    rw [if_pos hc]

/-- C6 witness: a 404-coded event leaves the empty state unchanged. -/
theorem c6_witness :
    (evNotFound.ResponseStatus = none ∨
      ∃ rs, evNotFound.ResponseStatus = some rs ∧ (rs.Code < 200 ∨ 300 ≤ rs.Code)) ∧
    updateMetrics "c" emptyState evNotFound = some (emptyState, []) :=
  ⟨Or.inr ⟨{ Code := 404 }, rfl, by decide⟩,
   c6_entry_filter "c" emptyState evNotFound (Or.inr ⟨{ Code := 404 }, rfl, by decide⟩)⟩

/-- C8 (code bug): a pod non-binding create event that passes the entry
filter but carries no response body makes the engine dereference the nil
`ResponseObject` (a Go panic, `none` here) instead of skipping the
correlation step: the event-processing function is not total. -/
theorem c8_nil_body_panics :
    updateMetrics "c" emptyState evPodCreateNilBody = none := rfl

/-- C1 counterexample: with a pending batch-job entry storing timestamp
110, a completing update at stage timestamp 150 whose snapshot's creation
timestamp is 100 emits latency 50 = 150 - 100, not 150 - 110: the emitted
job latency is not the stage timestamp minus the stored pending
timestamp. -/
theorem c1_counterexample :
    updateMetrics "c" exC1State evJobComplete =
      some (exC1Post, [Obs.batchJobCompletion "c" "d" "unknown" 50]) ∧
    mapLookup exC1State.batchJobCreationTimes
      (buildTarget evJobComplete.ObjectRef) = some (some 110) ∧
    (50 : Int) ≠ evJobComplete.StageTimestamp - 110 := by
  refine ⟨by decide, by decide, by decide⟩

/-- C1 amended: a pod scheduling observation comes from an absent entry
(value 0) or a pending entry (value stage timestamp minus the stored
timestamp); a job completion observation requires a pending entry but its
value is the stage timestamp minus the decoded snapshot's creation
timestamp; and a resolved entry (pod or job) emits nothing, so no
pending-to-resolved transition emits twice. -/
theorem c1_amended_latency (cl : String) (s : CorState) (e : Event)
    (s' : CorState) (obs : List Obs)
    (h : updateMetrics cl s e = some (s', obs)) :
    (∀ c n u L, Obs.podScheduling c n u L ∈ obs →
        (mapLookup s.podCreationTimes (buildTarget e.ObjectRef) = none ∧ L = 0) ∨
        (∃ ts, mapLookup s.podCreationTimes (buildTarget e.ObjectRef) = some (some ts) ∧
          L = e.StageTimestamp - ts)) ∧
    (∀ c n u L, Obs.batchJobCompletion c n u L ∈ obs →
        (∃ ts, mapLookup s.batchJobCreationTimes (buildTarget e.ObjectRef) = some (some ts)) ∧
        (∃ raw job, e.ResponseObject = some raw ∧ raw.asBatchJob = some job ∧
          L = e.StageTimestamp - job.Metadata.CreationTimestamp)) ∧
    (mapLookup s.podCreationTimes (buildTarget e.ObjectRef) = some none →
        ∀ c n u L, Obs.podScheduling c n u L ∉ obs) ∧
    (mapLookup s.batchJobCreationTimes (buildTarget e.ObjectRef) = some none →
        ∀ c n u L, Obs.batchJobCompletion c n u L ∉ obs) := by
  have hc1 : ∀ c n u L, Obs.podScheduling c n u L ∈ obs →
      (mapLookup s.podCreationTimes (buildTarget e.ObjectRef) = none ∧ L = 0) ∨
      (∃ ts, mapLookup s.podCreationTimes (buildTarget e.ObjectRef) = some (some ts) ∧
        L = e.StageTimestamp - ts) := by
    intro c n u L hmem
    rcases updateMetrics_latency_source cl s e s' obs h hmem (Or.inl rfl) with
      ⟨ref, href, hin | hin⟩
    · rw [href]
      exact handlePodBinding_podSched cl ref.Namespace s e ref hin
    · exact absurd hin (handleJobs_no_podSched cl ref.Namespace s e ref)
  have hc2 : ∀ c n u L, Obs.batchJobCompletion c n u L ∈ obs →
      (∃ ts, mapLookup s.batchJobCreationTimes (buildTarget e.ObjectRef) = some (some ts)) ∧
      (∃ raw job, e.ResponseObject = some raw ∧ raw.asBatchJob = some job ∧
        L = e.StageTimestamp - job.Metadata.CreationTimestamp) := by
    intro c n u L hmem
    rcases updateMetrics_latency_source cl s e s' obs h hmem (Or.inr rfl) with
      ⟨ref, href, hin | hin⟩
    · exact absurd hin (handlePodBinding_no_job cl ref.Namespace s e ref)
    · rw [href]
      exact handleJobs_job cl ref.Namespace s e ref hin
  refine ⟨hc1, hc2, ?_, ?_⟩
  · intro hres c n u L hmem
    rcases hc1 c n u L hmem with ⟨h0, -⟩ | ⟨ts, hts, -⟩
    · exact Option.noConfusion (hres.symm.trans h0)
    · have h1 := hres.symm.trans hts
      simp at h1
  · intro hres c n u L hmem
    obtain ⟨⟨ts, hts⟩, -⟩ := hc2 c n u L hmem
    have h1 := hres.symm.trans hts
    simp at h1

/-- C1 witness: the amended theorem applied to the concrete completing
job update, recovering the pending entry it was gated on. -/
theorem c1_witness :
    ∃ ts, mapLookup exC1State.batchJobCreationTimes
      (buildTarget evJobComplete.ObjectRef) = some (some ts) :=
  ((c1_amended_latency "c" exC1State evJobComplete exC1Post
      [Obs.batchJobCompletion "c" "d" "unknown" 50] (by decide)).2.1
    "c" "d" "unknown" 50 (List.mem_singleton.mpr rfl)).1

/-- C3: a pod binding-create event passing the entry filter whose Target
is absent from the pod lifecycle map emits exactly one scheduling-latency
observation, of value zero, and marks the Target resolved. -/
theorem c3_binding_absent (cl : String) (s : CorState) (e : Event)
    (ref : ObjectReference) (rs : ResponseStatus)
    (hrs : e.ResponseStatus = some rs) (hlo : 200 ≤ rs.Code) (hhi : rs.Code < 300)
    (href : e.ObjectRef = some ref) (hres : ref.Resource = "pods")
    (hsub : ref.Subresource = "binding") (hverb : e.Verb = "create")
    (habs : mapLookup s.podCreationTimes (buildTarget (some ref)) = none) :
    ∃ obs,
      updateMetrics cl s e =
        some (CorState.mk (mapInsert s.podCreationTimes (buildTarget (some ref)) none)
          s.batchJobCreationTimes, obs)
      ∧ obs.countP (fun o => o.isPodSched) = 1
      ∧ Obs.podScheduling cl ref.Namespace (extractUserAgent e.UserAgent) 0 ∈ obs
      ∧ mapLookup (mapInsert s.podCreationTimes (buildTarget (some ref)) none)
          (buildTarget (some ref)) = some none := by
  have hfilter : ¬ (rs.Code < 200 ∨ 300 ≤ rs.Code) := by omega
  simp only [updateMetrics, hrs, href]
  rw [if_neg hfilter]
  simp [handleRef, hres, hsub, hverb, handlePodBinding, habs]
  refine ⟨?_, mapLookup_mapInsert ..⟩
  by_cases hst : e.Stage = stageResponseComplete <;>
    simp [hst, List.countP_cons, List.countP_nil, Obs.isPodSched]

/-- C3 witness: concrete binding-create, code 201, empty state. -/
theorem c3_witness :
    evBindingCreate.ResponseStatus = some { Code := 201 } ∧
    (200 : Int) ≤ 201 ∧ (201 : Int) < 300 ∧
    mapLookup emptyState.podCreationTimes (buildTarget (some refPodsBinding)) = none ∧
    (∃ obs,
      updateMetrics "c" emptyState evBindingCreate =
        some (CorState.mk
          (mapInsert emptyState.podCreationTimes (buildTarget (some refPodsBinding)) none)
          emptyState.batchJobCreationTimes, obs)
      ∧ obs.countP (fun o => o.isPodSched) = 1
      ∧ Obs.podScheduling "c" refPodsBinding.Namespace
          (extractUserAgent evBindingCreate.UserAgent) 0 ∈ obs
      ∧ mapLookup (mapInsert emptyState.podCreationTimes (buildTarget (some refPodsBinding)) none)
          (buildTarget (some refPodsBinding)) = some none) :=
  ⟨rfl, by decide, by decide, rfl,
    c3_binding_absent "c" emptyState evBindingCreate refPodsBinding { Code := 201 }
      rfl (by decide) (by decide) rfl rfl rfl rfl rfl⟩

/-- C4: when the unread region is well-formed decodable records followed
by a terminated malformed line, the poll errors, emits exactly the good
records, and stores exactly the offset where the malformed record begins,
so the next poll retries from that offset. -/
theorem c4_malformed_stops {σ : Type} (dec : List Nat → Option Event)
    (upd : σ → Event → σ) (content : List Nat) (ls : List (List Nat))
    (bad t : List Nat) (off : Nat) (st : σ)
    (hgood : ∀ l ∈ ls, IsRecordLine l ∧ shapeOk l = true ∧ (dec l).isSome = true)
    (hbad : IsRecordLine bad) (hbadshape : shapeOk bad = false)
    (hoff : off < content.length)
    (hcontent : content.drop off = ls.join ++ bad ++ t) :
    (processFileUpdate dec upd content off st).offset =
        off + (ls.map List.length).sum ∧
    (processFileUpdate dec upd content off st).ok = false ∧
    (processFileUpdate dec upd content off st).emitted = ls := by
  unfold processFileUpdate
  rw [if_neg (by omega), if_neg (by omega), hcontent]
  exact readLoop_corrupt dec upd ls bad t off st hgood hbad hbadshape

/-- C4 witness: one good record then the malformed terminated record
123 10; the poll errors at offset 3 having emitted only the good record. -/
theorem c4_witness :
    (0 : Nat) < corruptContent.length ∧
    corruptContent.drop 0 = [[123, 125, 10]].join ++ [123, 10] ++ [] ∧
    ((processFileUpdate decSome updUnit corruptContent 0 ()).offset =
        0 + ([[123, 125, 10]].map List.length).sum ∧
     (processFileUpdate decSome updUnit corruptContent 0 ()).ok = false ∧
     (processFileUpdate decSome updUnit corruptContent 0 ()).emitted = [[123, 125, 10]]) :=
  ⟨by decide, by decide,
   c4_malformed_stops decSome updUnit corruptContent [[123, 125, 10]] [123, 10] [] 0 ()
     (by
       intro l hl
       simp only [List.mem_singleton] at hl
       subst hl
       exact ⟨⟨[123, 125], rfl, by decide⟩, by decide, rfl⟩)
     ⟨[123], rfl, by decide⟩ (by decide) (by decide) (by decide)⟩

/-- C5: the stored offset never decreases when the file has not shrunk; a
poll seeing size strictly below the offset performs exactly the one reset
to zero and continues reading from the start (not an error return); a poll
seeing size equal to the offset returns successfully with offset, state,
and emissions untouched. -/
theorem c5_offset_dynamics {σ : Type} (dec : List Nat → Option Event)
    (upd : σ → Event → σ) (content : List Nat) (off : Nat) (st : σ) :
    (off ≤ content.length → off ≤ (processFileUpdate dec upd content off st).offset) ∧
    (content.length < off →
      processFileUpdate dec upd content off st = readLoop dec upd content [] 0 st) ∧
    (content.length = off →
      processFileUpdate dec upd content off st = ⟨off, st, [], true⟩) := by
  refine ⟨?_, ?_, ?_⟩
  · intro hle
    unfold processFileUpdate
    rcases Nat.lt_or_ge off content.length with hlt | hge
    · rw [if_neg (by omega), if_neg (by omega)]
      exact readLoop_offset_le dec upd (content.drop off) [] off st
    · have heq : content.length = off := by omega
      rw [if_neg (by omega), if_pos heq]
  · intro hlt
    unfold processFileUpdate
    rw [if_pos hlt]
  · intro heq
    unfold processFileUpdate
    rw [if_neg (by omega), if_pos heq]

/-- C5 witness: size equal to offset returns everything unchanged. -/
theorem c5_witness :
    ([123, 125, 10] : List Nat).length = 3 ∧
    processFileUpdate decSome updUnit [123, 125, 10] 3 () = ⟨3, (), [], true⟩ :=
  ⟨rfl, (c5_offset_dynamics decSome updUnit [123, 125, 10] 3 ()).2.2 rfl⟩

/-- C7 counterexample: on content 0 0 123 125 10 the poll returns an error
with the offset still 0 and nothing emitted — the leading NUL run is not
skipped and is treated as corruption, contrary to the claim. -/
theorem c7_counterexample :
    (processFileUpdate decSome updUnit nulContent 0 ()).ok = false ∧
    (processFileUpdate decSome updUnit nulContent 0 ()).offset = 0 ∧
    (processFileUpdate decSome updUnit nulContent 0 ()).emitted = [] := by
  exact ⟨by decide, by decide, by decide⟩

/-- C7 amended: a poll whose unread region begins with a NUL byte and
contains a newline does not skip the NUL run: the run lands in the first
line read, the shape check fails, and the poll aborts with an error,
emitting nothing and leaving the offset at the start of the run. -/
theorem c7_amended_nul_corrupts {σ : Type} (dec : List Nat → Option Event)
    (upd : σ → Event → σ) (content : List Nat) (off : Nat) (st : σ)
    (hoff : off < content.length)
    (hnul : (content.drop off).head? = some 0)
    (hnl : 10 ∈ content.drop off) :
    processFileUpdate dec upd content off st = ⟨off, st, [], false⟩ := by
  unfold processFileUpdate
  rw [if_neg (by omega), if_neg (by omega)]
  rcases hd : content.drop off with _ | ⟨a, ys⟩
  · rw [hd] at hnul
    simp at hnul
  · rw [hd] at hnul
    simp only [List.head?_cons, Option.some.injEq] at hnul
    subst hnul
    have hnl' : 10 ∈ ys := by
      rw [hd] at hnl
      rcases List.mem_cons.mp hnl with h10 | h10
      · cases h10
      · exact h10
    simp only [readLoop]
    rw [if_neg (by decide : ¬ (0 : Nat) = 10)]
    exact readLoop_badhead dec upd ys ([] ++ [0]) 0 off st rfl (by decide) hnl'

/-- C7 witness: the amended behaviour at the concrete NUL-headed content. -/
theorem c7_witness :
    (0 : Nat) < nulContent.length ∧
    (nulContent.drop 0).head? = some 0 ∧
    (10 : Nat) ∈ nulContent.drop 0 ∧
    processFileUpdate decSome updUnit nulContent 0 () = ⟨0, (), [], false⟩ :=
  ⟨by decide, rfl, by decide,
   c7_amended_nul_corrupts decSome updUnit nulContent 0 () (by decide) rfl (by decide)⟩

end Exporter
